import Mathlib

/-!
# Verification of the orchestrated-ai-agents workflow engine

A shallow embedding of the repository's core code paths, translated from the
Python sources:

* `utils/helpers.py`   — `format_agent_response`
* `memory/redis_memory.py` — `save_state` / `load_state` / `clear_state`
  (the Redis client is modelled as an association list from keys to the raw
  strings it stores; `json.dumps` / `json.loads` are modelled by an executable
  printer/parser pair over a JSON value type, numbers restricted to integers
  and string escaping restricted to the quote and backslash characters)
* `orchestrator/supervisor.py` — `create_workflow`, `execute_workflow`,
  `_get_execution_plan`, `_build_graph`, `_extract_graph_structure`,
  `_create_node_handler`, `_get_agent_for_node`, `_should_retry`,
  `_retry_node`
* `agents/planner_agent.py` — `_extract_steps` (the step extractor that the
  supervisor references but does not itself define)

External collaborators (the Redis server, the LLM-backed agents, the langgraph
execution engine) are modelled as parameters: an agent is a function from the
execution state to a result-or-exception, the graph engine is a function from
the initial execution context to a final context-or-exception.

Python exceptions are modelled by the `PyErr` type; a Python function that can
raise is translated to a function into `Except PyErr _`.  Python dictionaries
are modelled by association lists (insertion = prepend, lookup = first match),
which gives the same observable lookup behaviour.
-/

namespace Orchestra

/-- JSON-compatible documents (spec §6: maps, sequences, strings, numbers,
booleans, null).  Numbers are modelled as integers. -/
inductive Json where
  | null
  | bool (b : Bool)
  | num (n : Int)
  | str (s : String)
  | arr (elems : List Json)
  | obj (fields : List (String × Json))
deriving Repr, BEq

/-- Python truthiness for JSON-shaped values: `None`, `False`, `0`, `""`,
`[]` and `\x7b\x7d` are falsy, everything else is truthy. -/
def pyTruthy : Json → Bool
  | .null => false
  | .bool b => b
  | .num n => n != 0
  | .str s => s != ""
  | .arr elems => !elems.isEmpty
  | .obj fields => !fields.isEmpty

/-- `utils/helpers.py`, `format_agent_response(success, data=None, error=None)`:
builds the dict with keys `success`, `data` (`data or \x7b\x7d`) and `error`.
The `data or \x7b\x7d` expression yields `\x7b\x7d` exactly when `data` is
absent (`None`) or falsy. -/
def format_agent_response (success : Bool) (data : Option Json := none)
    (error : Option String := none) : Json :=
  Json.obj
    [("success", Json.bool success),
     ("data", match data with
       | some d => if pyTruthy d then d else Json.obj []
       | none => Json.obj []),
     ("error", match error with
       | some e => Json.str e
       | none => Json.null)]

/-- Field lookup in a JSON object; `none` on a non-object or a missing key. -/
def objLookup (j : Json) (key : String) : Option Json :=
  match j with
  | .obj fields => fields.lookup key
  | _ => none

/-- The keys of a JSON object, in order. -/
def objKeys : Json → List String
  | .obj fields => fields.map Prod.fst
  | _ => []

/-- Is the value a JSON object (a Python dict)? -/
def isObj : Json → Bool
  | .obj _ => true
  | _ => false

/-! ## Python `str()` rendering

`Supervisor._get_agent_for_node` tests `agent_name in str(plan.get("agents_involved", []))`,
so we model Python's `str()` on JSON-shaped values.  `str` of a string is the
string itself; `str` of a container renders the elements with `repr`
(strings with single quotes).  Quote escaping inside `repr` of a string is not
modelled; no claim depends on it. -/

mutual

/-- Python `repr()` of a JSON-shaped value. -/
def pyRepr : Json → String
  | .null => "None"
  | .bool true => "True"
  | .bool false => "False"
  | .num n => toString n
  | .str s => "'" ++ s ++ "'"
  | .arr elems => "[" ++ pyReprElems elems ++ "]"
  | .obj fields => "\x7b" ++ pyReprFields fields ++ "\x7d"

/-- Comma-separated `repr`s of list elements. -/
def pyReprElems : List Json → String
  | [] => ""
  | [x] => pyRepr x
  | x :: xs => pyRepr x ++ ", " ++ pyReprElems xs

/-- Comma-separated `'key': repr` renderings of dict entries. -/
def pyReprFields : List (String × Json) → String
  | [] => ""
  | [(k, v)] => "'" ++ k ++ "': " ++ pyRepr v
  | (k, v) :: fs => "'" ++ k ++ "': " ++ pyRepr v ++ ", " ++ pyReprFields fs

end

/-- Python `str()` of a JSON-shaped value. -/
def pyStr : Json → String
  | .str s => s
  | v => pyRepr v

/-- Python `str()` of an optional value, as interpolated by an f-string:
`None` renders as `"None"`. -/
def pyOptStr : Option String → String
  | none => "None"
  | some s => s

/-- Python's substring test `needle in hay` on character lists. -/
def hasSubstr : List Char → List Char → Bool
  | hay, needle =>
    if needle.isPrefixOf hay then true
    else
      match hay with
      | [] => false
      | _ :: t => hasSubstr t needle

/-- `Supervisor._get_agent_for_node(node, plan)`: iterates the registered agent
names in registry order and returns the first whose name occurs as a raw
substring of `str(plan.get("agents_involved", []))`; `None` when no registered
name matches. -/
def get_agent_for_node (agents : List String) (_node : String)
    (plan : List (String × Json)) : Option String :=
  agents.find? fun agent_name =>
    hasSubstr (pyStr ((plan.lookup "agents_involved").getD (Json.arr []))).data
      agent_name.data

/-- Python `text.split("\n")` on character lists (`acc` holds the current
line, reversed). -/
def splitNewlines : List Char → List Char → List (List Char)
  | [], acc => [acc.reverse]
  | '\n' :: rest, acc => acc.reverse :: splitNewlines rest []
  | c :: rest, acc => splitNewlines rest (c :: acc)

/-- Python `line.strip()` (whitespace from both ends). -/
def stripEnds (l : List Char) : List Char :=
  ((l.dropWhile Char.isWhitespace).reverse.dropWhile Char.isWhitespace).reverse

/-- `PlannerAgent._extract_steps(plan_text)`: split on newlines, strip each
line, and keep the lines that start with `1.`–`5.`, `-` or `•` and have more
than two characters.  (Implemented on character lists so that concrete
evaluations reduce; `String.mk` re-packs the kept lines.) -/
def planner_extract_steps (plan_text : String) : List String :=
  (((splitNewlines plan_text.data []).map stripEnds).filter fun line =>
    (["1.".data, "2.".data, "3.".data, "4.".data, "5.".data, "-".data, "•".data].any
      fun p => p.isPrefixOf line)
      && line.length > 2).map String.mk

/-! ## `json.dumps` / `json.loads`

The standard-library serializer used by `memory/redis_memory.py` is modelled
by an executable printer/parser pair on `Json`.  The printer follows
`json.dumps` with its default separators (`", "` between items, `": "` after a
key); string escaping is restricted to `"` and `\` (control-character and
non-ASCII escapes are not modelled — unescaped characters pass through both
directions unchanged, so the round-trip behaviour is preserved).  The parser
accepts exactly the printed form, which is all `load_state` ever feeds it. -/

/-- The decimal digit character for `d < 10`. -/
def digCh (d : Nat) : Char := Char.ofNat (d + 48)

/-- Decimal digits of `n`, most significant first, with explicit fuel
(`fuel > n` suffices); fuel keeps the recursion structural so that concrete
values reduce definitionally. -/
def natCharsF : Nat → Nat → List Char
  | 0, _ => []
  | fuel + 1, n => if n < 10 then [digCh n] else natCharsF fuel (n / 10) ++ [digCh (n % 10)]

/-- Decimal digits of a natural number, most significant first. -/
def natChars (n : Nat) : List Char := natCharsF (n + 1) n

/-- Decimal rendering of an integer, as `json.dumps` prints it. -/
def intChars (n : Int) : List Char :=
  if n < 0 then '-' :: natChars n.natAbs else natChars n.toNat

/-- JSON string escaping restricted to `"` and `\`. -/
def escapeChars : List Char → List Char
  | [] => []
  | c :: s => if c = '"' ∨ c = '\\' then '\\' :: c :: escapeChars s else c :: escapeChars s

mutual

/-- `json.dumps` of a value, as a character list. -/
def dumpsL : Json → List Char
  | .null => 'n' :: 'u' :: 'l' :: 'l' :: []
  | .bool true => 't' :: 'r' :: 'u' :: 'e' :: []
  | .bool false => 'f' :: 'a' :: 'l' :: 's' :: 'e' :: []
  | .num n => intChars n
  | .str s => '"' :: (escapeChars s.data ++ ['"'])
  | .arr [] => ['[', ']']
  | .arr (x :: xs) => '[' :: (dumpsL x ++ dumpsArrRest xs)
  | .obj [] => ['\x7b', '\x7d']
  | .obj (f :: fs) => '\x7b' :: (dumpsMem f ++ dumpsObjRest fs)

/-- Remaining array elements after the first: `", elem"` each, then `]`. -/
def dumpsArrRest : List Json → List Char
  | [] => [']']
  | x :: xs => ',' :: ' ' :: (dumpsL x ++ dumpsArrRest xs)

/-- One object member: `"key": value`. -/
def dumpsMem : String × Json → List Char
  | (k, v) => '"' :: (escapeChars k.data ++ '"' :: ':' :: ' ' :: dumpsL v)

/-- Remaining object members after the first: `", member"` each, then the
closing brace. -/
def dumpsObjRest : List (String × Json) → List Char
  | [] => ['\x7d']
  | f :: fs => ',' :: ' ' :: (dumpsMem f ++ dumpsObjRest fs)

end

/-- `json.dumps`. -/
def dumps (v : Json) : String := String.mk (dumpsL v)

/-- Parse a maximal non-empty digit prefix as a natural number. -/
def parseNat (cs : List Char) : Option (Nat × List Char) :=
  let ds := cs.takeWhile Char.isDigit
  if ds.isEmpty then none
  else some (ds.foldl (fun a c => a * 10 + (c.toNat - 48)) 0, cs.dropWhile Char.isDigit)

/-- Parse the body of a JSON string up to its closing quote, undoing the
`\"` and `\\` escapes. -/
def parseStrBody : List Char → Option (List Char × List Char)
  | [] => none
  | '"' :: r => some ([], r)
  | '\\' :: e :: rest =>
    (match parseStrBody rest with
     | some (s, r') => some (e :: s, r')
     | none => none)
  | ['\\'] => none
  | c :: r =>
    (match parseStrBody r with
     | some (s, r') => some (c :: s, r')
     | none => none)

mutual

/-- Parse one JSON value in the canonical `dumps` format.  The fuel bounds
recursion depth; any `fuel ≥ jsize` of the value suffices. -/
def parseVal : Nat → List Char → Option (Json × List Char)
  | 0, _ => none
  | fuel + 1, cs =>
    match cs with
    | [] => none
    | c :: r =>
      if c = 'n' then
        match r with
        | 'u' :: 'l' :: 'l' :: r' => some (.null, r')
        | _ => none
      else if c = 't' then
        match r with
        | 'r' :: 'u' :: 'e' :: r' => some (.bool true, r')
        | _ => none
      else if c = 'f' then
        match r with
        | 'a' :: 'l' :: 's' :: 'e' :: r' => some (.bool false, r')
        | _ => none
      else if c = '"' then
        match parseStrBody r with
        | some (s, r') => some (.str (String.mk s), r')
        | none => none
      else if c = '[' then
        match r with
        | [] => none
        | d :: r' =>
          if d = ']' then some (.arr [], r')
          else
            match parseVal fuel (d :: r') with
            | some (v, r1) =>
              match parseArrRest fuel r1 with
              | some (vs, r2) => some (.arr (v :: vs), r2)
              | none => none
            | none => none
      else if c = '\x7b' then
        match r with
        | [] => none
        | d :: r' =>
          if d = '\x7d' then some (.obj [], r')
          else if d = '"' then
            match parseStrBody r' with
            | some (k, r1) =>
              match r1 with
              | ':' :: ' ' :: r2 =>
                match parseVal fuel r2 with
                | some (v, r3) =>
                  match parseObjRest fuel r3 with
                  | some (fs, r4) => some (.obj ((String.mk k, v) :: fs), r4)
                  | none => none
                | none => none
              | _ => none
            | none => none
          else none
      else if c = '-' then
        match parseNat r with
        | some (n, r') => some (.num (-(n : Int)), r')
        | none => none
      else if c.isDigit then
        match parseNat (c :: r) with
        | some (n, r') => some (.num (n : Int), r')
        | none => none
      else none

/-- Parse array elements after the first: `]` closes, `", "` continues. -/
def parseArrRest : Nat → List Char → Option (List Json × List Char)
  | 0, _ => none
  | fuel + 1, cs =>
    match cs with
    | ']' :: r => some ([], r)
    | ',' :: ' ' :: r =>
      match parseVal fuel r with
      | some (v, r1) =>
        match parseArrRest fuel r1 with
        | some (vs, r2) => some (v :: vs, r2)
        | none => none
      | none => none
    | _ => none

/-- Parse object members after the first: the closing brace closes, `", "`
continues with a quoted key. -/
def parseObjRest : Nat → List Char → Option (List (String × Json) × List Char)
  | 0, _ => none
  | fuel + 1, cs =>
    match cs with
    | '\x7d' :: r => some ([], r)
    | ',' :: ' ' :: '"' :: r =>
      match parseStrBody r with
      | some (k, r1) =>
        match r1 with
        | ':' :: ' ' :: r2 =>
          match parseVal fuel r2 with
          | some (v, r3) =>
            match parseObjRest fuel r3 with
            | some (fs, r4) => some ((String.mk k, v) :: fs, r4)
            | none => none
          | none => none
        | _ => none
      | none => none
    | _ => none

end

mutual

/-- Fuel bound sufficient for `parseVal` on the printed form of a value. -/
def jsize : Json → Nat
  | .null => 1
  | .bool _ => 1
  | .num _ => 1
  | .str _ => 1
  | .arr xs => 1 + jsizeElems xs
  | .obj fs => 1 + jsizeFields fs

/-- Fuel bound for `parseArrRest` on printed trailing elements. -/
def jsizeElems : List Json → Nat
  | [] => 1
  | x :: xs => 1 + jsize x + jsizeElems xs

/-- Fuel bound for `parseObjRest` on printed trailing members. -/
def jsizeFields : List (String × Json) → Nat
  | [] => 1
  | f :: fs => 1 + jsize f.2 + jsizeFields fs

end

/-- `json.loads`: parse the whole string as one value. -/
def loads (s : String) : Option Json :=
  match parseVal (s.data.length + 1) s.data with
  | some (v, []) => some v
  | _ => none

/-! ## `memory/redis_memory.py`

The Redis client (`decode_responses=True`) is modelled as an association list
from keys to the raw strings stored under them: `set` prepends, `get` takes
the first match, `delete` removes every binding of the key.  Key expiry
(`expire`, driven by the unused-here `ttl` argument) involves real time and is
not modelled; an entry persists until deleted. -/

/-- The raw key/value content of the Redis server. -/
def RStore : Type := List (String × String)

/-- `redis.set(key, value)`. -/
def rset (store : RStore) (key value : String) : RStore := (key, value) :: store

/-- `redis.get(key)`: `None` when the key is absent. -/
def rget (store : RStore) (key : String) : Option String :=
  List.lookup key store

/-- `redis.delete(key)`: removes the key, returning the number of keys
removed as seen through Python truthiness (was anything there?). -/
def rdel (store : RStore) (key : String) : RStore :=
  store.filter fun p => !(p.1 == key)

/-- `RedisMemory.save_state(key, state, ttl=None)`: serializes with
`json.dumps`, stores under `key`, returns `True` (the except-branch returning
`False` is only reachable through client faults, which the store model does
not produce). -/
def save_state (store : RStore) (key : String) (state : Json)
    (_ttl : Option Nat := none) : RStore × Bool :=
  let serialized_state := dumps state
  (rset store key serialized_state, true)

/-- `RedisMemory.load_state(key)`: `get`, then `json.loads` when the reply is
truthy (a non-empty string); `None` when absent, falsy, or unparseable (the
except-branch). -/
def load_state (store : RStore) (key : String) : Option Json :=
  match rget store key with
  | some s => if s ≠ "" then loads s else none
  | none => none

/-- `RedisMemory.clear_state(key)`: `delete`, `True` iff something was
removed. -/
def clear_state (store : RStore) (key : String) : RStore × Bool :=
  ((rdel store key), (rget store key).isSome)

/-! ## `orchestrator/supervisor.py`

Python exceptions, the workflow-state documents, the persisted store, and the
supervisor's operations.  The repository defines no exception classes of its
own (no `PlanningError`, `PlanStructureError`, `UnresolvedAgentError`,
`NodeExecutionError`, `MissingFallbackError`, `WorkflowNotFoundError` exist
anywhere in the sources); it raises the built-ins modelled here.  `str(e)` of
each built-in is its message (Python's punctuation around quoted names inside
messages is kept as plain text). -/

/-- The Python exceptions raised by the modelled code paths. -/
inductive PyErr where
  | valueError (msg : String)
  | attributeError (msg : String)
  | indexError (msg : String)
  | exception (msg : String)
deriving Repr, BEq, DecidableEq

/-- Python `str(e)`. -/
def PyErr.msg : PyErr → String
  | .valueError m => m
  | .attributeError m => m
  | .indexError m => m
  | .exception m => m

/-- A persisted workflow-state document: a Python dict whose possible keys
are fixed by the supervisor's writes (`status`, `plan`, `task`, `results`,
`error`); an absent key is `none`. -/
structure WState where
  status : Option String := none
  plan : Option Json := none
  task : Option Json := none
  results : Option (List (String × Json)) := none
  error : Option String := none
deriving Repr, BEq

/-- The workflow-state store: the key/document map that `RedisMemory`
implements (verified separately through `save_state` / `load_state`);
insertion prepends, lookup takes the first match. -/
def WStore : Type := List (String × WState)

/-- `save_workflow_state`: store a document under `"workflow:" ++ id`. -/
def save_workflow_state (store : WStore) (workflow_id : String) (state : WState) : WStore :=
  ("workflow:" ++ workflow_id, state) :: store

/-- `get_workflow_state`: load the document under `"workflow:" ++ id`. -/
def get_workflow_state (store : WStore) (workflow_id : String) : Option WState :=
  List.lookup ("workflow:" ++ workflow_id) store

/-- The result of `await agent.execute(...)`: the `success`/`data`/`error`
dict every agent returns (via `format_agent_response`), or a raised
exception. -/
structure AgentResp where
  success : Bool
  data : Json := Json.obj []
  error : Option String := none
deriving Repr, BEq

/-- The langgraph `END` sentinel node name. -/
def END : String := "__end__"

/-- A constructed workflow graph: node names, plain edges, and conditional
edges `(start, true-target, fallback-target)`.  Handlers attached by
`add_node` are modelled at execution time, not stored in the graph value. -/
structure Graph where
  nodes : List String := []
  edges : List (String × String) := []
  cond_edges : List (String × String × String) := []
deriving Repr, BEq

/-- `Supervisor._get_fallback_node(node)`. -/
def get_fallback_node (node : String) : String := node ++ "_fallback"

/-- `self._extract_steps(plan)` as called at `supervisor.py:219`.  The
`Supervisor` class defines no method `_extract_steps` (the only
`_extract_steps` in the repository is `PlannerAgent._extract_steps`, which is
not inherited — `Supervisor` has no base class), so the attribute lookup
raises `AttributeError` for every plan. -/
def supervisor_extract_steps (_plan : Json) : Except PyErr (List String) :=
  .error (.attributeError "Supervisor object has no attribute _extract_steps")

/-- The node name for step `i`. -/
def stepName (i : Nat) : String := "step_" ++ toString i

/-- The loop body of `_extract_graph_structure` (supervisor.py:220–223): one
node `step_i` per step in order, and an unconditioned edge
`step_(i-1) -> step_i` for every `i > 0`. -/
def structureLoop (steps : List String) :
    List String × List (String × String × Option Unit) :=
  ((List.range steps.length).map stepName,
   (List.range steps.length).filterMap fun i =>
     if 0 < i then some (stepName (i - 1), stepName i, none) else none)

/-- `Supervisor._extract_graph_structure(plan)`: extract the steps (which
raises, see `supervisor_extract_steps`), then build nodes and edges. -/
def extract_graph_structure (plan : Json) :
    Except PyErr (List String × List (String × String × Option Unit)) := do
  let steps ← supervisor_extract_steps plan
  return structureLoop steps

/-- `Supervisor._build_graph(plan)`: extract structure, add the nodes and
edges, then add `END` and the edge `nodes[-1] -> END` — an `IndexError` when
the node list is empty.  The external `StateGraph()` constructor is modelled
as succeeding, so the first fault is the repository's own. -/
def build_graph (plan : Json) : Except PyErr Graph := do
  let (nodes, edges) ← extract_graph_structure plan
  let g : Graph :=
    { nodes := nodes,
      edges := (edges.filterMap fun e => if e.2.2.isSome then none else some (e.1, e.2.1)),
      cond_edges := (edges.filterMap fun e =>
        if e.2.2.isSome then some (e.1, e.2.1, get_fallback_node e.2.1) else none) }
  match nodes.getLast? with
  | some last =>
      return { g with nodes := g.nodes ++ [END], edges := g.edges ++ [(last, END)] }
  | none => .error (.indexError "list index out of range")

/-- `Supervisor._get_execution_plan(task)`: look up `planner_agent`, run it,
raise `Exception("Planning failed: ...")` when it reports failure, otherwise
return its `data`.  The planner itself is an external collaborator, passed as
a function. -/
def get_execution_plan (agents : List (String × (Json → Except PyErr AgentResp)))
    (task : Json) : Except PyErr Json := do
  match List.lookup "planner_agent" agents with
  | none => .error (.valueError "Planner agent not available")
  | some planner =>
    let response ← planner task
    if !response.success then
      .error (.exception ("Planning failed: " ++ pyOptStr response.error))
    else
      return response.data

/-- `Supervisor.create_workflow(task)`: plan, build the graph, generate an id
(the fresh UUID is passed in as `new_id`), persist the `initialized` state,
return the id together with the graph and the updated store.  The
`try/except` re-raises, so failures propagate unchanged. -/
def create_workflow (agents : List (String × (Json → Except PyErr AgentResp)))
    (new_id : String) (store : WStore) (task : Json) :
    Except PyErr (String × Graph × WStore) := do
  let plan ← get_execution_plan agents task
  let graph ← build_graph plan
  let store' := save_workflow_state store new_id
    { status := some "initialized", plan := some plan, task := some task }
  return (new_id, graph, store')

/-- The execution context built by `_execute_graph`
(`workflow_id` / `state` / `results`) and mutated in place by the node
handlers; `retries` is the key `_retry_node` adds to it on first retry
(absent = no entry). -/
structure ExecCtx where
  workflow_id : Option String := none
  state : WState := {}
  results : List (String × Json) := []
  retries : List (String × Nat) := []
deriving Repr, BEq

/-- Python truthiness of `self.current_workflow_id`: set and non-empty. -/
def truthyId : Option String → Bool
  | none => false
  | some s => s != ""

/-- The supervisor's own mutable fields. -/
structure Sup where
  graph : Option Graph := none
  current_workflow_id : Option String := none

/-- `Supervisor._execute_graph(state)`: `ValueError` when no graph is set,
otherwise run the external langgraph engine (`aexec`, a parameter) on the
fresh context and return the `results` of the final context. -/
def execute_graph (aexec : ExecCtx → Except PyErr ExecCtx) (sup : Sup)
    (state : WState) : Except PyErr (List (String × Json)) := do
  match sup.graph with
  | none => .error (.valueError "No workflow graph defined")
  | some _ =>
    let final_state ← aexec
      { workflow_id := sup.current_workflow_id, state := state, results := [] }
    return final_state.results

/-- `Supervisor.execute_workflow(workflow_id)`: load the state (`ValueError`
when absent), run the graph, persist `completed` + `results` and return the
success response; on any exception, persist a fresh
`status=failed`/`error` document under `self.current_workflow_id` when that
is truthy, and return the failure response.  Returns the response, the
updated store, and the updated `current_workflow_id`. -/
def execute_workflow (aexec : ExecCtx → Except PyErr ExecCtx) (sup : Sup)
    (store : WStore) (workflow_id : String) : Json × WStore × Option String :=
  match get_workflow_state store workflow_id with
  | none =>
    let error_msg := "Workflow execution failed: No workflow found with ID: " ++ workflow_id
    let store' :=
      if truthyId sup.current_workflow_id then
        save_workflow_state store (sup.current_workflow_id.getD "")
          { status := some "failed", error := some error_msg }
      else store
    (format_agent_response false none (some error_msg), store', sup.current_workflow_id)
  | some state =>
    match execute_graph aexec { sup with current_workflow_id := some workflow_id } state with
    | .ok results =>
      let state' := { state with status := some "completed", results := some results }
      (format_agent_response true (some (Json.obj results)) none,
       save_workflow_state store workflow_id state', some workflow_id)
    | .error e =>
      let error_msg := "Workflow execution failed: " ++ e.msg
      let store' :=
        if truthyId (some workflow_id) then
          save_workflow_state store workflow_id
            { status := some "failed", error := some error_msg }
        else store
      (format_agent_response false none (some error_msg), store', some workflow_id)

/-! ## The node handler and the retry controller -/

/-- `StateGraph.get("plan", \x7b\x7d)` as written at `supervisor.py:240`:
the attribute access is on the imported langgraph `StateGraph` *class* (not
on the handler's `state` argument), and that class defines no attribute
`get`, so the lookup raises `AttributeError` before the agent of the node is
ever resolved or invoked. -/
def stateGraphClassGet : Except PyErr Json :=
  .error (.attributeError "type object StateGraph has no attribute get")

/-- The retry counter of a node in the context (`.get(node, 0)`). -/
def getRetries (ctx : ExecCtx) (node : String) : Nat :=
  (List.lookup node ctx.retries).getD 0

/-- `state["retries"][node] = v` (with `setdefault` for the outer key). -/
def setRetries (ctx : ExecCtx) (node : String) (v : Nat) : ExecCtx :=
  { ctx with retries := (node, v) :: ctx.retries }

/-- `Supervisor._should_retry(node, state)`:
`state.get("retries", \x7b\x7d).get(node, 0) < settings.MAX_RETRIES`
(`max_retries` passes in the configured bound; its default is 3). -/
def should_retry (max_retries : Nat) (node : String) (ctx : ExecCtx) : Bool :=
  getRetries ctx node < max_retries

/-- One pass through the `try` body of the handler made by
`Supervisor._create_node_handler(node)`: compute the plan (which raises, see
`stateGraphClassGet`), resolve and check the agent, run it, record
`state["results"][node]` on success, raise on reported failure.  Agents are
external collaborators, passed as functions from the execution state. -/
def handlerOnce (agents : List (String × (ExecCtx → Except PyErr AgentResp)))
    (node : String) (ctx : ExecCtx) : Except PyErr ExecCtx := do
  let plan ← stateGraphClassGet
  let agent_name := get_agent_for_node (agents.map Prod.fst) node
    (match plan with | .obj fields => fields | _ => [])
  match agent_name with
  | none => .error (.valueError ("No agent found for node " ++ node))
  | some name =>
    match List.lookup name agents with
    | none => .error (.valueError ("No agent found for node " ++ node))
    | some agent =>
      let result ← agent ctx
      if result.success then
        return { ctx with results := (node, result.data) :: ctx.results }
      else
        .error (.exception ("Agent execution failed: " ++ pyOptStr result.error))

/-- The handler's `except` clause together with `_retry_node`, unrolled: on
any exception, while `_should_retry` holds, increment the counter, sleep
`2 ** counter` seconds (collected in the returned list), and re-run the
handler; otherwise re-raise.  The fuel counts permitted retries; since each
retry needs `counter < max_retries` and increments the counter,
`max_retries` fuel is always sufficient, and the fuel-exhausted branch
coincides with the re-raise branch. -/
def runNodeF (agents : List (String × (ExecCtx → Except PyErr AgentResp)))
    (max_retries : Nat) (node : String) :
    Nat → ExecCtx → Except PyErr ExecCtx × List Nat × ExecCtx
  | fuel, ctx =>
    match handlerOnce agents node ctx with
    | .ok ctx' => (.ok ctx', [], ctx')
    | .error e =>
      if should_retry max_retries node ctx then
        match fuel with
        | 0 => (.error e, [], ctx)
        | fuel' + 1 =>
          let r := getRetries ctx node + 1
          let ctx' := setRetries ctx node r
          let out := runNodeF agents max_retries node fuel' ctx'
          (out.1, 2 ^ r :: out.2.1, out.2.2)
      else (.error e, [], ctx)

/-- Execute one node with retry: the result (or the exception that escapes
after retries are exhausted), the backoff sleeps performed in order, and the
final mutated context. -/
def runNode (agents : List (String × (ExecCtx → Except PyErr AgentResp)))
    (max_retries : Nat) (node : String) (ctx : ExecCtx) :
    Except PyErr ExecCtx × List Nat × ExecCtx :=
  runNodeF agents max_retries node max_retries ctx

/-- The default `settings.MAX_RETRIES` from `utils/config.py`. -/
def MAX_RETRIES : Nat := 3

/-- Character lists whose first character (if any) is not a decimal digit;
the continuations that follow a printed JSON number. -/
def nonDigitStart (r : List Char) : Prop :=
  ∀ c, r.head? = some c → c.isDigit = false

/-! ## Helper lemmas -/

theorem objLookup_success (a b c : Json) :
    objLookup (Json.obj [("success", a), ("data", b), ("error", c)]) "success" = some a := rfl

theorem objLookup_data (a b c : Json) :
    objLookup (Json.obj [("success", a), ("data", b), ("error", c)]) "data" = some b := rfl

theorem objLookup_error (a b c : Json) :
    objLookup (Json.obj [("success", a), ("data", b), ("error", c)]) "error" = some c := rfl

theorem objKeys_far (a b c : Json) :
    objKeys (Json.obj [("success", a), ("data", b), ("error", c)]) =
      ["success", "data", "error"] := rfl

/-! ## C10 — `format_agent_response` shape -/

/-- C10: for every combination of arguments (with `data` respecting its
`Optional[Dict]` annotation), `format_agent_response` returns a mapping with
exactly the keys `success`, `data`, `error` in that order; the `data` value
is always a mapping, and it is the empty mapping whenever the `data` argument
is omitted (`None`) — failure results included. -/
theorem format_agent_response_spec (success : Bool) (data : Option Json)
    (error : Option String) (hdata : ∀ d, data = some d → isObj d = true) :
    objKeys (format_agent_response success data error) = ["success", "data", "error"] ∧
    (∃ dv, objLookup (format_agent_response success data error) "data" = some dv ∧
      isObj dv = true) ∧
    (data = none →
      objLookup (format_agent_response success data error) "data" = some (Json.obj [])) := by
  cases data with
  | none => exact ⟨rfl, ⟨Json.obj [], rfl, rfl⟩, fun _ => rfl⟩
  | some d =>
    have hobj : isObj d = true := hdata d rfl
    refine ⟨rfl, ?_, fun h => by cases h⟩
    match d, hobj with
    | Json.obj fs, _ =>
      by_cases hfs : pyTruthy (Json.obj fs) = true
      · exact ⟨Json.obj fs, by simp only [format_agent_response, objLookup_data, hfs, if_true], rfl⟩
      · refine ⟨Json.obj [], ?_, rfl⟩
        simp only [format_agent_response, objLookup_data]
        rw [if_neg (by simpa using hfs)]

/-- Closed instance of `format_agent_response_spec`: a failure response with
omitted `data` still carries the empty mapping under `data`. -/
theorem format_agent_response_spec_witness :
    objKeys (format_agent_response false none (some "boom")) = ["success", "data", "error"] ∧
    (∃ dv, objLookup (format_agent_response false none (some "boom")) "data" = some dv ∧
      isObj dv = true) ∧
    objLookup (format_agent_response false none (some "boom")) "data" = some (Json.obj []) := by
  obtain ⟨h1, h2, h3⟩ :=
    format_agent_response_spec false none (some "boom") (fun d h => by cases h)
  exact ⟨h1, h2, h3 rfl⟩

/-! ## C8 — agent resolution -/

/-- C8 counterexample: with registry `["code_agent"]` and a plan whose
`agents_involved` is `["my_code_agent_pro"]`, resolution returns
`"code_agent"` — a registered name that does **not** occur among the agent
names referenced in the plan (it merely occurs as a substring of the list's
string rendering). -/
theorem get_agent_for_node_substring_cx :
    get_agent_for_node ["code_agent"] "step_0"
      [("agents_involved", Json.arr [Json.str "my_code_agent_pro"])] = some "code_agent" ∧
    ¬ ("code_agent" ∈ ["my_code_agent_pro"]) := by
  exact ⟨by decide, by decide⟩

/-- C8 amended: resolution (`_get_agent_for_node`) returns `None` — the
condition the handler turns into the unresolved-agent failure — exactly when
no registered agent name occurs as a substring of
`str(plan.get("agents_involved", []))`; otherwise it returns the first
registered agent name that is a substring of that rendering (which need not
be one of the listed names). -/
theorem get_agent_for_node_spec (agents : List String) (node : String)
    (plan : List (String × Json)) :
    (get_agent_for_node agents node plan = none ↔
      ∀ nm ∈ agents,
        hasSubstr (pyStr ((plan.lookup "agents_involved").getD (Json.arr []))).data
          nm.data = false) ∧
    (∀ nm, get_agent_for_node agents node plan = some nm →
      nm ∈ agents ∧
        hasSubstr (pyStr ((plan.lookup "agents_involved").getD (Json.arr []))).data
          nm.data = true) := by
  constructor
  · unfold get_agent_for_node
    rw [List.find?_eq_none]
    constructor
    · intro h nm hm
      simpa using h nm hm
    · intro h nm hm
      simpa using h nm hm
  · intro nm h
    unfold get_agent_for_node at h
    have h1 := List.mem_of_find?_eq_some h
    have h2 := List.find?_some h
    exact ⟨h1, by simpa using h2⟩

/-- Closed instance of `get_agent_for_node_spec`: a plan that does list the
registered agent resolves to it. -/
theorem get_agent_for_node_spec_witness :
    get_agent_for_node ["research_agent"] "step_0"
      [("agents_involved", Json.arr [Json.str "research_agent"])] = some "research_agent" ∧
    "research_agent" ∈ ["research_agent"] := by
  refine ⟨by decide, ?_⟩
  exact ((get_agent_for_node_spec ["research_agent"] "step_0"
    [("agents_involved", Json.arr [Json.str "research_agent"])]).2
    "research_agent" (by decide)).1

/-! ## C2 — graph construction on plans with steps -/

/-- C2: evaluating the builder at a plan with two extractable steps (per the
repository's only step extractor, `PlannerAgent._extract_steps`): instead of
producing the `step_0`/`step_1`/`END` nodes and their edges, `_build_graph`
raises `AttributeError`, because `Supervisor` defines no `_extract_steps`. -/
theorem build_graph_missing_extractor_c2 :
    planner_extract_steps "1. gather sources\n2. write summary" =
      ["1. gather sources", "2. write summary"] ∧
    build_graph (Json.obj [("plan", Json.str "1. gather sources\n2. write summary")]) =
      .error (.attributeError "Supervisor object has no attribute _extract_steps") := by
  exact ⟨by decide, rfl⟩

/-! ## C5 — graph construction on plans with zero steps -/

/-- C5 counterexample: a plan with zero extractable steps makes
`_build_graph` fail with `AttributeError` (the missing `_extract_steps`), not
with any plan-structure error — no `PlanStructureError` type exists anywhere
in the repository. -/
theorem build_graph_zero_steps_cx :
    planner_extract_steps "This plan has no steps" = [] ∧
    build_graph (Json.obj [("plan", Json.str "This plan has no steps")]) =
      .error (.attributeError "Supervisor object has no attribute _extract_steps") := by
  exact ⟨by decide, rfl⟩

/-- C5 amended: graph construction fails for **every** plan — those with zero
extractable steps included — and the failure is the `AttributeError` from the
missing `Supervisor._extract_steps`, not a `PlanStructureError` (which the
repository never defines; nor is there any zero-step guard — `nodes[-1]` at
supervisor.py:172 would raise `IndexError` on an empty node list). -/
theorem build_graph_always_attribute_error (plan : Json) :
    build_graph plan =
      .error (.attributeError "Supervisor object has no attribute _extract_steps") := rfl

/-! ## C6 — `create_workflow` -/

/-- C6: evaluating `create_workflow`.  With a planner that reports failure it
raises `Exception("Planning failed: ...")` (the claim's `PlanningError` half).
But with a planner that succeeds it raises the `AttributeError` from
`_build_graph` instead of persisting the `initialized` state and returning
the workflow id: the success half of the claim is unreachable. -/
theorem create_workflow_never_persists_c6 :
    create_workflow
      [("planner_agent", fun _ => .ok { success := true, data := Json.str "1. do it" })]
      "wf-1" [] (Json.obj [("task", Json.str "t")]) =
      .error (.attributeError "Supervisor object has no attribute _extract_steps") ∧
    create_workflow
      [("planner_agent", fun _ => .ok { success := false, error := some "quota" })]
      "wf-1" [] (Json.obj [("task", Json.str "t")]) =
      .error (.exception "Planning failed: quota") := by
  exact ⟨rfl, rfl⟩

/-- Looking up a workflow right after saving it yields the saved document. -/
theorem get_save_self (store : WStore) (wid : String) (st : WState) :
    get_workflow_state (save_workflow_state store wid st) wid = some st := by
  simp [get_workflow_state, save_workflow_state, List.lookup]

/-! ## C4 — `execute_workflow` on an unknown id -/

/-- C4 amended: on an id absent from the store, `execute_workflow` returns a
failure response whose error reports the unknown id (the raised not-found
`ValueError` is caught at the boundary, never propagated); the store is left
unchanged when no current workflow id is set from an earlier call, but when
one is set, a fresh `failed` document is written over that other workflow's
state. -/
theorem execute_workflow_unknown_id_spec (aexec : ExecCtx → Except PyErr ExecCtx)
    (sup : Sup) (store : WStore) (workflow_id : String)
    (habs : get_workflow_state store workflow_id = none) :
    objLookup (execute_workflow aexec sup store workflow_id).1 "success" =
      some (Json.bool false) ∧
    objLookup (execute_workflow aexec sup store workflow_id).1 "error" =
      some (Json.str ("Workflow execution failed: No workflow found with ID: " ++ workflow_id)) ∧
    (truthyId sup.current_workflow_id = false →
      (execute_workflow aexec sup store workflow_id).2.1 = store) ∧
    (∀ cur, sup.current_workflow_id = some cur → cur ≠ "" →
      (execute_workflow aexec sup store workflow_id).2.1 =
        save_workflow_state store cur
          { status := some "failed",
            error := some ("Workflow execution failed: No workflow found with ID: "
              ++ workflow_id) }) := by
  unfold execute_workflow
  rw [habs]
  refine ⟨rfl, rfl, ?_, ?_⟩
  · intro h
    simp [h]
  · intro cur hc hne
    rw [hc]
    simp [truthyId, hne]

/-- Closed instance of `execute_workflow_unknown_id_spec`: a fresh supervisor
(no current workflow id) on an unknown id returns the not-found failure and
writes nothing. -/
theorem execute_workflow_unknown_id_spec_witness :
    objLookup (execute_workflow (fun c => .ok c) {} [] "w9").1 "success" =
      some (Json.bool false) ∧
    objLookup (execute_workflow (fun c => .ok c) {} [] "w9").1 "error" =
      some (Json.str "Workflow execution failed: No workflow found with ID: w9") ∧
    (execute_workflow (fun c => .ok c) {} [] "w9").2.1 = [] := by
  obtain ⟨h1, h2, h3, _⟩ :=
    execute_workflow_unknown_id_spec (fun c => .ok c) {} [] "w9" rfl
  exact ⟨h1, h2, h3 rfl⟩

/-- C4 counterexample: after a previous call left
`current_workflow_id = "A"`, executing the unknown id `"B"` overwrites the
persisted state of workflow `A` with a fresh `failed` document — the call
does mutate the store. -/
theorem execute_workflow_unknown_id_mutates_cx :
    get_workflow_state [("workflow:A", { status := some "initialized" })] "B" = none ∧
    get_workflow_state
      (execute_workflow (fun c => .ok c)
        { graph := none, current_workflow_id := some "A" }
        [("workflow:A", { status := some "initialized" })] "B").2.1 "A" =
      some { status := some "failed",
             error := some "Workflow execution failed: No workflow found with ID: B" } ∧
    (execute_workflow (fun c => .ok c)
        { graph := none, current_workflow_id := some "A" }
        [("workflow:A", { status := some "initialized" })] "B").2.1 ≠
      [("workflow:A", { status := some "initialized" })] := by
  refine ⟨rfl, rfl, ?_⟩
  intro h
  exact absurd (congrArg List.length h) (by decide)

/-! ## C1 — `execute_workflow` failure boundary -/

/-- C1 amended: for every workflow id that is **non-empty**, when the loaded
state's graph execution fails with any exception, `execute_workflow` returns
(never raises) a response with `success = false` and a non-empty error
string, and persists a `failed` document with that non-empty error under the
workflow's key.  (For the empty id the persistence step is skipped, see the
counterexample.) -/
theorem execute_workflow_failure_spec (aexec : ExecCtx → Except PyErr ExecCtx)
    (sup : Sup) (store : WStore) (workflow_id : String) (st : WState) (e : PyErr)
    (hfound : get_workflow_state store workflow_id = some st)
    (hwid : workflow_id ≠ "")
    (hfail : execute_graph aexec { sup with current_workflow_id := some workflow_id } st =
      .error e) :
    objLookup (execute_workflow aexec sup store workflow_id).1 "success" =
      some (Json.bool false) ∧
    objLookup (execute_workflow aexec sup store workflow_id).1 "error" =
      some (Json.str ("Workflow execution failed: " ++ e.msg)) ∧
    "Workflow execution failed: " ++ e.msg ≠ "" ∧
    get_workflow_state (execute_workflow aexec sup store workflow_id).2.1 workflow_id =
      some { status := some "failed",
             error := some ("Workflow execution failed: " ++ e.msg) } := by
  have htr : truthyId (some workflow_id) = true := by
    simp [truthyId, hwid]
  have h0 : execute_workflow aexec sup store workflow_id =
      (match execute_graph aexec { sup with current_workflow_id := some workflow_id } st with
       | .ok results =>
         (format_agent_response true (some (Json.obj results)) none,
          save_workflow_state store workflow_id
            { st with status := some "completed", results := some results },
          some workflow_id)
       | .error err =>
         (format_agent_response false none
            (some ("Workflow execution failed: " ++ err.msg)),
          (if truthyId (some workflow_id) then
            save_workflow_state store workflow_id
              { status := some "failed",
                error := some ("Workflow execution failed: " ++ err.msg) }
          else store),
          some workflow_id)) := by
    unfold execute_workflow
    rw [hfound]
  rw [h0, hfail]
  refine ⟨rfl, rfl, ?_, ?_⟩
  · intro h
    have hl := congrArg String.length h
    rw [String.length_append] at hl
    have h27 : ("Workflow execution failed: " : String).length = 27 := rfl
    have hz : ("" : String).length = 0 := rfl
    rw [h27, hz] at hl
    omega
  · show get_workflow_state
      (if truthyId (some workflow_id) = true then
        save_workflow_state store workflow_id
          { status := some "failed",
            error := some ("Workflow execution failed: " ++ PyErr.msg e) }
      else store) workflow_id = _
    rw [htr, if_pos rfl]
    exact get_save_self ..

/-- Closed instance of `execute_workflow_failure_spec`: a node failure on a
stored workflow `w1` yields the failure response and the persisted `failed`
record. -/
theorem execute_workflow_failure_spec_witness :
    objLookup (execute_workflow (fun _ => .error (.exception "Agent execution failed: None"))
      { graph := some {}, current_workflow_id := none }
      [("workflow:w1", { status := some "initialized" })] "w1").1 "success" =
      some (Json.bool false) ∧
    "Workflow execution failed: Agent execution failed: None" ≠ "" ∧
    get_workflow_state (execute_workflow
      (fun _ => .error (.exception "Agent execution failed: None"))
      { graph := some {}, current_workflow_id := none }
      [("workflow:w1", { status := some "initialized" })] "w1").2.1 "w1" =
      some { status := some "failed",
             error := some "Workflow execution failed: Agent execution failed: None" } := by
  obtain ⟨h1, _, h3, h4⟩ :=
    execute_workflow_failure_spec
      (fun _ => .error (.exception "Agent execution failed: None"))
      { graph := some {}, current_workflow_id := none }
      [("workflow:w1", { status := some "initialized" })] "w1"
      { status := some "initialized" } (.exception "Agent execution failed: None")
      rfl (by decide) rfl
  exact ⟨h1, h3, h4⟩

/-- C1 counterexample: with the empty workflow id (whose state is present in
the store), a node failure still returns the failure response, but the
persisted state keeps `status = "initialized"` — nothing is written, because
`if self.current_workflow_id:` treats the empty id as falsy, so the claim's
"persisted status == failed" part fails at this input. -/
theorem execute_workflow_empty_id_cx :
    objLookup (execute_workflow (fun _ => .error (.exception "Agent execution failed: None"))
      { graph := some {}, current_workflow_id := none }
      [("workflow:", { status := some "initialized" })] "").1 "success" =
      some (Json.bool false) ∧
    (execute_workflow (fun _ => .error (.exception "Agent execution failed: None"))
      { graph := some {}, current_workflow_id := none }
      [("workflow:", { status := some "initialized" })] "").2.1 =
      [("workflow:", { status := some "initialized" })] ∧
    (get_workflow_state
      [("workflow:", { status := some "initialized" })] "").map WState.status =
      some (some "initialized") ∧
    "initialized" ≠ "failed" := by
  exact ⟨rfl, rfl, rfl, by decide⟩

/-! ## The retry controller: helper lemmas -/

/-- The handler's `try` body raises before reaching the agent, for every node
and every context: the `StateGraph.get` class-attribute lookup fails first. -/
theorem handlerOnce_err (agents : List (String × (ExecCtx → Except PyErr AgentResp)))
    (node : String) (ctx : ExecCtx) :
    handlerOnce agents node ctx =
      .error (.attributeError "type object StateGraph has no attribute get") := rfl

theorem getRetries_set (ctx : ExecCtx) (node : String) (v : Nat) :
    getRetries (setRetries ctx node v) node = v := by
  simp [getRetries, setRetries, List.lookup]

theorem setRetries_results (ctx : ExecCtx) (node : String) (v : Nat) :
    (setRetries ctx node v).results = ctx.results := rfl

/-- One unfolding of `runNodeF` when a retry is permitted. -/
theorem runNodeF_succ_true (agents : List (String × (ExecCtx → Except PyErr AgentResp)))
    (mr : Nat) (node : String) (fuel : Nat) (ctx : ExecCtx)
    (h : should_retry mr node ctx = true) :
    runNodeF agents mr node (fuel + 1) ctx =
      ((runNodeF agents mr node fuel (setRetries ctx node (getRetries ctx node + 1))).1,
       2 ^ (getRetries ctx node + 1) ::
         (runNodeF agents mr node fuel (setRetries ctx node (getRetries ctx node + 1))).2.1,
       (runNodeF agents mr node fuel (setRetries ctx node (getRetries ctx node + 1))).2.2) := by
  conv_lhs => unfold runNodeF
  simp [handlerOnce_err, h]

/-- One unfolding of `runNodeF` when retries are exhausted: the exception is
re-raised, no sleep happens, the context is returned as is. -/
theorem runNodeF_false (agents : List (String × (ExecCtx → Except PyErr AgentResp)))
    (mr : Nat) (node : String) (fuel : Nat) (ctx : ExecCtx)
    (h : should_retry mr node ctx = false) :
    runNodeF agents mr node fuel ctx =
      (.error (.attributeError "type object StateGraph has no attribute get"), [], ctx) := by
  conv_lhs => unfold runNodeF
  cases fuel <;> simp [handlerOnce_err, h]

/-- Reindexing of the backoff sleep list: prepending the first sleep shifts
the exponent base. -/
theorem range_pow_shift (r k : Nat) :
    2 ^ (r + 1) :: (List.range k).map (fun i => 2 ^ (r + 1 + i + 1)) =
      (List.range (k + 1)).map (fun i => 2 ^ (r + i + 1)) := by
  rw [List.range_succ_eq_map, List.map_cons, List.map_map]
  congr 1
  apply List.map_congr_left
  intro a _
  simp only [Function.comp_apply]
  congr 1
  omega

/-- Full characterization of the retry loop: with sufficient fuel it ends in
the `AttributeError`, sleeps exactly `2^(r0+1), …, 2^mr` seconds (one sleep
per retry, the counter incremented before each sleep), and leaves the node's
retry counter at `max r0 mr`. -/
theorem runNodeF_char (agents : List (String × (ExecCtx → Except PyErr AgentResp)))
    (mr : Nat) (node : String) :
    ∀ fuel ctx, mr - getRetries ctx node ≤ fuel →
      (runNodeF agents mr node fuel ctx).1 =
        .error (.attributeError "type object StateGraph has no attribute get") ∧
      (runNodeF agents mr node fuel ctx).2.1 =
        (List.range (mr - getRetries ctx node)).map
          (fun i => 2 ^ (getRetries ctx node + i + 1)) ∧
      getRetries (runNodeF agents mr node fuel ctx).2.2 node =
        max (getRetries ctx node) mr ∧
      (runNodeF agents mr node fuel ctx).2.2.results = ctx.results := by
  intro fuel
  induction fuel with
  | zero =>
    intro ctx hle
    have hge : mr ≤ getRetries ctx node := by omega
    have hsr : should_retry mr node ctx = false := by
      unfold should_retry
      exact decide_eq_false (by omega)
    rw [runNodeF_false agents mr node 0 ctx hsr]
    have h0 : mr - getRetries ctx node = 0 := by omega
    refine ⟨rfl, ?_, ?_, rfl⟩
    · rw [h0]; rfl
    · rw [Nat.max_eq_left hge]
  | succ fuel ih =>
    intro ctx hle
    by_cases hlt : getRetries ctx node < mr
    · have hsr : should_retry mr node ctx = true := by
        unfold should_retry
        exact decide_eq_true hlt
      rw [runNodeF_succ_true agents mr node fuel ctx hsr]
      have hr' : getRetries (setRetries ctx node (getRetries ctx node + 1)) node =
          getRetries ctx node + 1 := getRetries_set ..
      have hle' : mr - getRetries (setRetries ctx node (getRetries ctx node + 1)) node
          ≤ fuel := by rw [hr']; omega
      obtain ⟨ih1, ih2, ih3, ih4⟩ :=
        ih (setRetries ctx node (getRetries ctx node + 1)) hle'
      refine ⟨ih1, ?_, ?_, ?_⟩
      · rw [ih2, hr']
        have hsub : mr - getRetries ctx node = (mr - (getRetries ctx node + 1)) + 1 := by
          omega
        rw [hsub]
        exact range_pow_shift (getRetries ctx node) (mr - (getRetries ctx node + 1))
      · rw [ih3, hr', Nat.max_eq_right (by omega), Nat.max_eq_right (by omega)]
      · rw [ih4]
        rfl
    · have hsr : should_retry mr node ctx = false := by
        unfold should_retry
        exact decide_eq_false hlt
      rw [runNodeF_false agents mr node (fuel + 1) ctx hsr]
      have h0 : mr - getRetries ctx node = 0 := by omega
      refine ⟨rfl, ?_, ?_, rfl⟩
      · rw [h0]; rfl
      · rw [Nat.max_eq_left (by omega)]

/-! ## C3 — retry bound and exponential backoff -/

/-- C3: for every node, every execution state and every configured bound,
executing the node performs one backoff sleep of exactly `2^k` seconds for
each retry `k = r0+1, …, max_retries` (the counter is incremented before the
sleep), and the node's final retry counter is `max r0 max_retries` — in
particular it never exceeds `max_retries` (default `MAX_RETRIES = 3`) when it
started within the bound, and no retry is attempted once the counter reaches
the bound. -/
theorem retry_bound_and_backoff (agents : List (String × (ExecCtx → Except PyErr AgentResp)))
    (max_retries : Nat) (node : String) (ctx : ExecCtx) :
    (runNode agents max_retries node ctx).2.1 =
      (List.range (max_retries - getRetries ctx node)).map
        (fun i => 2 ^ (getRetries ctx node + i + 1)) ∧
    getRetries (runNode agents max_retries node ctx).2.2 node =
      max (getRetries ctx node) max_retries := by
  have h := runNodeF_char agents max_retries node max_retries ctx (by omega)
  exact ⟨h.2.1, h.2.2.1⟩

/-! ## C7 — no traversal can complete -/

/-- C7: evaluating a node execution with an agent that always succeeds: the
handler still fails every attempt with the `AttributeError` from the
`StateGraph.get` class lookup (supervisor.py:240) — the agent is never
invoked, no result is recorded (`results` stays empty), and the node ends in
the raised exception after `MAX_RETRIES` backoff sleeps of 2, 4 and 8
seconds.  Traversal therefore can never complete, so the `completed` status
and the one-result-per-node mapping the claim describes are unreachable. -/
theorem node_handler_class_get_c7 :
    runNode [("research_agent", fun _ => .ok { success := true, data := Json.str "done" })]
      MAX_RETRIES "step_0" {} =
      (.error (.attributeError "type object StateGraph has no attribute get"),
       [2, 4, 8],
       { retries := [("step_0", 3), ("step_0", 2), ("step_0", 1)] }) := rfl

/-! ## The `loads ∘ dumps` round trip -/

theorem digCh_isDigit (d : Nat) (h : d < 10) : (digCh d).isDigit = true := by
  interval_cases d <;> decide

theorem digCh_val (d : Nat) (h : d < 10) : (digCh d).toNat - 48 = d := by
  interval_cases d <;> decide

theorem natCharsF_digits : ∀ fuel n, n < fuel → ∀ c ∈ natCharsF fuel n, c.isDigit = true := by
  intro fuel
  induction fuel with
  | zero => intro n h; omega
  | succ fuel ih =>
    intro n h c hc
    by_cases h10 : n < 10
    · simp only [natCharsF, if_pos h10, List.mem_singleton] at hc
      exact hc ▸ digCh_isDigit n h10
    · simp only [natCharsF, if_neg h10, List.mem_append, List.mem_singleton] at hc
      rcases hc with hc | hc
      · exact ih (n / 10) (by omega) c hc
      · exact hc ▸ digCh_isDigit (n % 10) (Nat.mod_lt n (by omega))

theorem natCharsF_ne_nil : ∀ fuel n, n < fuel → natCharsF fuel n ≠ [] := by
  intro fuel
  induction fuel with
  | zero => intro n h; omega
  | succ fuel _ =>
    intro n _
    by_cases h10 : n < 10 <;> simp [natCharsF, h10]

theorem natCharsF_val : ∀ fuel n, n < fuel →
    (natCharsF fuel n).foldl (fun a c => a * 10 + (c.toNat - 48)) 0 = n := by
  intro fuel
  induction fuel with
  | zero => intro n h; omega
  | succ fuel ih =>
    intro n h
    by_cases h10 : n < 10
    · simp only [natCharsF, if_pos h10, List.foldl_cons, List.foldl_nil]
      rw [Nat.zero_mul, Nat.zero_add, digCh_val n h10]
    · simp only [natCharsF, if_neg h10, List.foldl_append, List.foldl_cons, List.foldl_nil]
      rw [ih (n / 10) (by omega), digCh_val (n % 10) (Nat.mod_lt n (by omega))]
      omega

theorem natChars_digits (n : Nat) : ∀ c ∈ natChars n, c.isDigit = true :=
  natCharsF_digits (n + 1) n (by omega)

theorem natChars_ne_nil (n : Nat) : natChars n ≠ [] :=
  natCharsF_ne_nil (n + 1) n (by omega)

theorem natChars_val (n : Nat) :
    (natChars n).foldl (fun a c => a * 10 + (c.toNat - 48)) 0 = n :=
  natCharsF_val (n + 1) n (by omega)

theorem takeWhile_append_all (p : Char → Bool) :
    ∀ (ds r : List Char), (∀ c ∈ ds, p c = true) →
      (ds ++ r).takeWhile p = ds ++ r.takeWhile p := by
  intro ds
  induction ds with
  | nil => intro r _; rfl
  | cons c ds ih =>
    intro r hall
    rw [List.cons_append, List.takeWhile_cons, hall c (List.mem_cons_self c _),
      ih r (fun d hd => hall d (List.mem_cons_of_mem c hd))]
    rfl

theorem dropWhile_append_all (p : Char → Bool) :
    ∀ (ds r : List Char), (∀ c ∈ ds, p c = true) →
      (ds ++ r).dropWhile p = r.dropWhile p := by
  intro ds
  induction ds with
  | nil => intro r _; rfl
  | cons c ds ih =>
    intro r hall
    rw [List.cons_append, List.dropWhile_cons, hall c (List.mem_cons_self c _),
      ih r (fun d hd => hall d (List.mem_cons_of_mem c hd))]
    rfl

theorem takeWhile_nds (r : List Char) (hr : nonDigitStart r) :
    r.takeWhile Char.isDigit = [] := by
  cases r with
  | nil => rfl
  | cons c t =>
    rw [List.takeWhile_cons, hr c rfl]
    rfl

theorem dropWhile_nds (r : List Char) (hr : nonDigitStart r) :
    r.dropWhile Char.isDigit = r := by
  cases r with
  | nil => rfl
  | cons c t =>
    rw [List.dropWhile_cons, hr c rfl]
    rfl

/-- Parsing the printed digits of `n` followed by a non-digit continuation
recovers `n`. -/
theorem parseNat_natChars (n : Nat) (r : List Char) (hr : nonDigitStart r) :
    parseNat (natChars n ++ r) = some (n, r) := by
  unfold parseNat
  rw [takeWhile_append_all Char.isDigit (natChars n) r (natChars_digits n),
    takeWhile_nds r hr, List.append_nil,
    dropWhile_append_all Char.isDigit (natChars n) r (natChars_digits n),
    dropWhile_nds r hr]
  rw [if_neg (by simpa [List.isEmpty_iff] using natChars_ne_nil n)]
  rw [natChars_val n]

theorem parseStrBody_esc (e : Char) (rest : List Char) :
    parseStrBody ('\\' :: e :: rest) =
      (match parseStrBody rest with
       | some (s, r') => some (e :: s, r')
       | none => none) := rfl

theorem parseStrBody_raw (c : Char) (rest : List Char) (h1 : c ≠ '"') (h2 : c ≠ '\\') :
    parseStrBody (c :: rest) =
      (match parseStrBody rest with
       | some (s, r') => some (c :: s, r')
       | none => none) := by
  rw [parseStrBody.eq_def]
  split <;> simp_all

/-- Parsing an escaped string body followed by its closing quote recovers the
original characters. -/
theorem parseStrBody_escape : ∀ (s r : List Char),
    parseStrBody (escapeChars s ++ '"' :: r) = some (s, r) := by
  intro s
  induction s with
  | nil => intro r; rfl
  | cons c s ih =>
    intro r
    by_cases hc : c = '"' ∨ c = '\\'
    · show parseStrBody ((if c = '"' ∨ c = '\\' then '\\' :: c :: escapeChars s
        else c :: escapeChars s) ++ '"' :: r) = _
      rw [if_pos hc, List.cons_append, List.cons_append, parseStrBody_esc, ih r]
    · push_neg at hc
      show parseStrBody ((if c = '"' ∨ c = '\\' then '\\' :: c :: escapeChars s
        else c :: escapeChars s) ++ '"' :: r) = _
      rw [if_neg (by tauto), List.cons_append, parseStrBody_raw c _ hc.1 hc.2, ih r]

/-! ### One-step unfolding lemmas for the parser -/

theorem parseVal_null (f : Nat) (r : List Char) :
    parseVal (f + 1) ('n' :: 'u' :: 'l' :: 'l' :: r) = some (.null, r) := rfl

theorem parseVal_true (f : Nat) (r : List Char) :
    parseVal (f + 1) ('t' :: 'r' :: 'u' :: 'e' :: r) = some (.bool true, r) := rfl

theorem parseVal_false (f : Nat) (r : List Char) :
    parseVal (f + 1) ('f' :: 'a' :: 'l' :: 's' :: 'e' :: r) = some (.bool false, r) := rfl

theorem parseVal_quote (f : Nat) (r : List Char) :
    parseVal (f + 1) ('"' :: r) =
      (match parseStrBody r with
       | some (s, r') => some (.str (String.mk s), r')
       | none => none) := rfl

theorem parseVal_arr (f : Nat) (d : Char) (r' : List Char) :
    parseVal (f + 1) ('[' :: d :: r') =
      (if d = ']' then some (.arr [], r')
       else
         match parseVal f (d :: r') with
         | some (v, r1) =>
           (match parseArrRest f r1 with
            | some (vs, r2) => some (.arr (v :: vs), r2)
            | none => none)
         | none => none) := rfl

theorem parseVal_brace_empty (f : Nat) (r : List Char) :
    parseVal (f + 1) ('\x7b' :: '\x7d' :: r) = some (.obj [], r) := rfl

theorem parseVal_brace_key (f : Nat) (r' : List Char) :
    parseVal (f + 1) ('\x7b' :: '"' :: r') =
      (match parseStrBody r' with
       | some (k, r1) =>
         (match r1 with
          | ':' :: ' ' :: r2 =>
            (match parseVal f r2 with
             | some (v, r3) =>
               (match parseObjRest f r3 with
                | some (fs, r4) => some (.obj ((String.mk k, v) :: fs), r4)
                | none => none)
             | none => none)
          | _ => none)
       | none => none) := rfl

theorem parseVal_dash (f : Nat) (cs : List Char) :
    parseVal (f + 1) ('-' :: cs) =
      (match parseNat cs with
       | some (n, r') => some (.num (-(n : Int)), r')
       | none => none) := rfl

/-- A digit character distinguishes itself from every literal head the parser
dispatches on. -/
theorem isDigit_ne_lits (c : Char) (h : c.isDigit = true) :
    c ≠ 'n' ∧ c ≠ 't' ∧ c ≠ 'f' ∧ c ≠ '"' ∧ c ≠ '[' ∧ c ≠ '\x7b' ∧ c ≠ '-' ∧ c ≠ ']' ∧
      c ≠ ',' ∧ c ≠ '\x7d' := by
  refine ⟨?_, ?_, ?_, ?_, ?_, ?_, ?_, ?_, ?_, ?_⟩ <;>
    (intro hc; subst hc; exact absurd h (by decide))

/-- Every digit character is a `digCh`. -/
theorem isDigit_digCh_decomp (c : Char) (h : c.isDigit = true) :
    ∃ d, d < 10 ∧ c = digCh d := by
  simp [Char.isDigit] at h
  obtain ⟨h1, h2⟩ := h
  have h1' : 48 ≤ c.toNat := by exact_mod_cast h1
  have h2' : c.toNat ≤ 57 := by exact_mod_cast h2
  refine ⟨c.toNat - 48, by omega, ?_⟩
  have he : c.toNat - 48 + 48 = c.toNat := by omega
  rw [digCh, he, Char.ofNat_toNat]

theorem parseVal_digit (f : Nat) (c : Char) (cs : List Char) (h : c.isDigit = true) :
    parseVal (f + 1) (c :: cs) =
      (match parseNat (c :: cs) with
       | some (n, r') => some (.num ((n : Int)), r')
       | none => none) := by
  obtain ⟨d, hd, rfl⟩ := isDigit_digCh_decomp c h
  interval_cases d <;> rfl

theorem parseArrRest_close (f : Nat) (r : List Char) :
    parseArrRest (f + 1) (']' :: r) = some ([], r) := rfl

theorem parseArrRest_comma (f : Nat) (r : List Char) :
    parseArrRest (f + 1) (',' :: ' ' :: r) =
      (match parseVal f r with
       | some (v, r1) =>
         (match parseArrRest f r1 with
          | some (vs, r2) => some (v :: vs, r2)
          | none => none)
       | none => none) := rfl

theorem parseObjRest_close (f : Nat) (r : List Char) :
    parseObjRest (f + 1) ('\x7d' :: r) = some ([], r) := rfl

theorem parseObjRest_comma (f : Nat) (r : List Char) :
    parseObjRest (f + 1) (',' :: ' ' :: '"' :: r) =
      (match parseStrBody r with
       | some (k, r1) =>
         (match r1 with
          | ':' :: ' ' :: r2 =>
            (match parseVal f r2 with
             | some (v, r3) =>
               (match parseObjRest f r3 with
                | some (fs, r4) => some ((String.mk k, v) :: fs, r4)
                | none => none)
             | none => none)
          | _ => none)
       | none => none) := rfl

theorem nds_nil : nonDigitStart [] := fun _ hc => Option.noConfusion hc

theorem nds_cons (c : Char) (cs : List Char) (h : c.isDigit = false) :
    nonDigitStart (c :: cs) :=
  fun _d hd => (Option.some.inj hd) ▸ h

theorem nds_arrRest (xs : List Json) (r : List Char) :
    nonDigitStart (dumpsArrRest xs ++ r) := by
  cases xs with
  | nil => exact nds_cons ']' r (by decide)
  | cons x xs => exact nds_cons ',' _ (by decide)

theorem nds_objRest (fs : List (String × Json)) (r : List Char) :
    nonDigitStart (dumpsObjRest fs ++ r) := by
  cases fs with
  | nil => exact nds_cons '\x7d' r (by decide)
  | cons f fs => exact nds_cons ',' _ (by decide)

/-- The printed form of a value is non-empty and never starts with `]`. -/
theorem dumpsL_cons (v : Json) : ∃ c cs, dumpsL v = c :: cs ∧ c ≠ ']' := by
  cases v with
  | null => exact ⟨'n', _, rfl, by decide⟩
  | bool b => cases b with
    | true => exact ⟨'t', _, rfl, by decide⟩
    | false => exact ⟨'f', _, rfl, by decide⟩
  | num n =>
    by_cases hn : n < 0
    · refine ⟨'-', natChars n.natAbs, ?_, by decide⟩
      rw [show dumpsL (Json.num n) = intChars n from rfl, intChars, if_pos hn]
    · obtain ⟨c, cs, hc⟩ := List.exists_cons_of_ne_nil (natChars_ne_nil n.toNat)
      have hcd : c.isDigit = true :=
        natChars_digits n.toNat c (by rw [hc]; exact List.mem_cons_self c _)
      refine ⟨c, cs, ?_, (isDigit_ne_lits c hcd).2.2.2.2.2.2.2.1⟩
      rw [show dumpsL (Json.num n) = intChars n from rfl, intChars, if_neg hn, hc]
  | str s => exact ⟨'"', _, rfl, by decide⟩
  | arr xs => cases xs with
    | nil => exact ⟨'[', _, rfl, by decide⟩
    | cons x xs => exact ⟨'[', _, rfl, by decide⟩
  | obj fs => cases fs with
    | nil => exact ⟨'\x7b', _, rfl, by decide⟩
    | cons f fs => exact ⟨'\x7b', _, rfl, by decide⟩

theorem dumpsL_pos (v : Json) : 0 < (dumpsL v).length := by
  obtain ⟨c, cs, hc, _⟩ := dumpsL_cons v
  rw [hc]
  simp

theorem dumpsArrRest_pos (xs : List Json) : 0 < (dumpsArrRest xs).length := by
  cases xs <;> simp [dumpsArrRest]

theorem dumpsObjRest_pos (fs : List (String × Json)) : 0 < (dumpsObjRest fs).length := by
  cases fs <;> simp [dumpsObjRest]

/-- The parser inverts the printer: parsing the printed form of a value
followed by any continuation that does not begin with a digit yields the
value and the continuation, for any fuel exceeding the printed length (the
three conjuncts run over values, trailing array elements, and trailing
object members). -/
theorem parse_dumps : ∀ fuel : Nat,
    (∀ v r, (dumpsL v).length < fuel → nonDigitStart r →
      parseVal fuel (dumpsL v ++ r) = some (v, r)) ∧
    (∀ xs r, (dumpsArrRest xs).length < fuel → nonDigitStart r →
      parseArrRest fuel (dumpsArrRest xs ++ r) = some (xs, r)) ∧
    (∀ fs r, (dumpsObjRest fs).length < fuel → nonDigitStart r →
      parseObjRest fuel (dumpsObjRest fs ++ r) = some (fs, r)) := by
  intro fuel
  induction fuel with
  | zero =>
    exact ⟨fun v r h _ => absurd h (Nat.not_lt_zero _),
      fun xs r h _ => absurd h (Nat.not_lt_zero _),
      fun fs r h _ => absurd h (Nat.not_lt_zero _)⟩
  | succ fuel ih =>
    obtain ⟨ihV, ihA, ihO⟩ := ih
    refine ⟨?_, ?_, ?_⟩
    · intro v r hlen hr
      cases v with
      | null => exact parseVal_null fuel r
      | bool b => cases b with
        | true => exact parseVal_true fuel r
        | false => exact parseVal_false fuel r
      | num n =>
        by_cases hn : n < 0
        · have hi : dumpsL (Json.num n) = '-' :: natChars n.natAbs := by
            rw [show dumpsL (Json.num n) = intChars n from rfl, intChars, if_pos hn]
          rw [hi, List.cons_append, parseVal_dash, parseNat_natChars n.natAbs r hr]
          show some (Json.num (-(n.natAbs : Int)), r) = some (Json.num n, r)
          have he : (-(n.natAbs : Int)) = n := by omega
          rw [he]
        · have hi : dumpsL (Json.num n) = natChars n.toNat := by
            rw [show dumpsL (Json.num n) = intChars n from rfl, intChars, if_neg hn]
          obtain ⟨c, cs, hc⟩ := List.exists_cons_of_ne_nil (natChars_ne_nil n.toNat)
          have hcd : c.isDigit = true :=
            natChars_digits n.toNat c (by rw [hc]; exact List.mem_cons_self c _)
          rw [hi, hc, List.cons_append, parseVal_digit fuel c (cs ++ r) hcd,
            ← List.cons_append, ← hc, parseNat_natChars n.toNat r hr]
          show some (Json.num ((n.toNat : Int)), r) = some (Json.num n, r)
          have he : ((n.toNat : Int)) = n := Int.toNat_of_nonneg (by omega)
          rw [he]
      | str s =>
        obtain ⟨sd⟩ := s
        have hshape : dumpsL (Json.str (String.mk sd)) ++ r =
            '"' :: (escapeChars sd ++ '"' :: r) := by
          simp [dumpsL]
        rw [hshape, parseVal_quote, parseStrBody_escape sd r]
      | arr xs =>
        cases xs with
        | nil => rw [show dumpsL (Json.arr []) ++ r = '[' :: ']' :: r from rfl,
            parseVal_arr, if_pos rfl]
        | cons x xs =>
          obtain ⟨c, cs, hc, hne⟩ := dumpsL_cons x
          have hshape : dumpsL (Json.arr (x :: xs)) ++ r =
              '[' :: c :: (cs ++ (dumpsArrRest xs ++ r)) := by
            simp [dumpsL, hc]
          have hlen' := hlen
          simp only [dumpsL, List.length_cons, List.length_append] at hlen'
          have hp1 : 0 < (dumpsL x).length := dumpsL_pos x
          have hp2 : 0 < (dumpsArrRest xs).length := dumpsArrRest_pos xs
          have h1 : parseVal fuel (dumpsL x ++ (dumpsArrRest xs ++ r)) =
              some (x, dumpsArrRest xs ++ r) :=
            ihV x (dumpsArrRest xs ++ r) (by omega) (nds_arrRest xs r)
          have h1' : parseVal fuel (c :: (cs ++ (dumpsArrRest xs ++ r))) =
              some (x, dumpsArrRest xs ++ r) := by
            rw [← List.cons_append, ← hc]
            exact h1
          rw [hshape, parseVal_arr, if_neg hne, h1']
          show (match parseArrRest fuel (dumpsArrRest xs ++ r) with
                | some (vs, r2) => some (Json.arr (x :: vs), r2)
                | none => none) = some (Json.arr (x :: xs), r)
          rw [ihA xs r (by omega) hr]
      | obj fs =>
        cases fs with
        | nil => rw [show dumpsL (Json.obj []) ++ r = '\x7b' :: '\x7d' :: r from rfl,
            parseVal_brace_empty]
        | cons f fs =>
          obtain ⟨k, v⟩ := f
          obtain ⟨kd⟩ := k
          have hshape : dumpsL (Json.obj ((String.mk kd, v) :: fs)) ++ r =
              '\x7b' :: '"' ::
                (escapeChars kd ++ '"' :: ':' :: ' ' ::
                  (dumpsL v ++ (dumpsObjRest fs ++ r))) := by
            simp [dumpsL, dumpsMem]
          have hlen' := hlen
          simp only [dumpsL, dumpsMem, List.length_cons, List.length_append] at hlen'
          have hp2 : 0 < (dumpsObjRest fs).length := dumpsObjRest_pos fs
          rw [hshape, parseVal_brace_key, parseStrBody_escape kd _]
          show (match parseVal fuel (dumpsL v ++ (dumpsObjRest fs ++ r)) with
                | some (w, r3) =>
                  (match parseObjRest fuel r3 with
                   | some (gs, r4) => some (Json.obj ((String.mk kd, w) :: gs), r4)
                   | none => none)
                | none => none) = some (Json.obj ((String.mk kd, v) :: fs), r)
          rw [ihV v (dumpsObjRest fs ++ r) (by omega) (nds_objRest fs r)]
          show (match parseObjRest fuel (dumpsObjRest fs ++ r) with
                | some (gs, r4) => some (Json.obj ((String.mk kd, v) :: gs), r4)
                | none => none) = some (Json.obj ((String.mk kd, v) :: fs), r)
          rw [ihO fs r (by omega) hr]
    · intro xs r hlen hr
      cases xs with
      | nil => exact parseArrRest_close fuel r
      | cons x xs =>
        have hshape : dumpsArrRest (x :: xs) ++ r =
            ',' :: ' ' :: (dumpsL x ++ (dumpsArrRest xs ++ r)) := by
          simp [dumpsArrRest]
        have hlen' := hlen
        simp only [dumpsArrRest, List.length_cons, List.length_append] at hlen'
        have hp1 : 0 < (dumpsL x).length := dumpsL_pos x
        have hp2 : 0 < (dumpsArrRest xs).length := dumpsArrRest_pos xs
        rw [hshape, parseArrRest_comma,
          ihV x (dumpsArrRest xs ++ r) (by omega) (nds_arrRest xs r)]
        show (match parseArrRest fuel (dumpsArrRest xs ++ r) with
              | some (vs, r2) => some (x :: vs, r2)
              | none => none) = some (x :: xs, r)
        rw [ihA xs r (by omega) hr]
    · intro fs r hlen hr
      cases fs with
      | nil => exact parseObjRest_close fuel r
      | cons f fs =>
        obtain ⟨k, v⟩ := f
        obtain ⟨kd⟩ := k
        have hshape : dumpsObjRest ((String.mk kd, v) :: fs) ++ r =
            ',' :: ' ' :: '"' ::
              (escapeChars kd ++ '"' :: ':' :: ' ' ::
                (dumpsL v ++ (dumpsObjRest fs ++ r))) := by
          simp [dumpsObjRest, dumpsMem]
        have hlen' := hlen
        simp only [dumpsObjRest, dumpsMem, List.length_cons, List.length_append] at hlen'
        have hp2 : 0 < (dumpsObjRest fs).length := dumpsObjRest_pos fs
        rw [hshape, parseObjRest_comma, parseStrBody_escape kd _]
        show (match parseVal fuel (dumpsL v ++ (dumpsObjRest fs ++ r)) with
              | some (w, r3) =>
                (match parseObjRest fuel r3 with
                 | some (gs, r4) => some ((String.mk kd, w) :: gs, r4)
                 | none => none)
              | none => none) = some ((String.mk kd, v) :: fs, r)
        rw [ihV v (dumpsObjRest fs ++ r) (by omega) (nds_objRest fs r)]
        show (match parseObjRest fuel (dumpsObjRest fs ++ r) with
              | some (gs, r4) => some ((String.mk kd, v) :: gs, r4)
              | none => none) = some ((String.mk kd, v) :: fs, r)
        rw [ihO fs r (by omega) hr]

/-- `json.loads` inverts `json.dumps`. -/
theorem loads_dumps (v : Json) : loads (dumps v) = some v := by
  have h := (parse_dumps ((dumpsL v).length + 1)).1 v [] (by omega) nds_nil
  rw [List.append_nil] at h
  show (match parseVal ((dumpsL v).length + 1) (dumpsL v) with
    | some (w, []) => some w
    | _ => none) = some v
  rw [h]

/-- The printed form of a document is never the empty string. -/
theorem dumps_ne_empty (v : Json) : dumps v ≠ "" := by
  intro h
  obtain ⟨c, cs, hc, _⟩ := dumpsL_cons v
  have hd : (dumps v).data = ("" : String).data := congrArg String.data h
  rw [show (dumps v).data = dumpsL v from rfl, hc] at hd
  cases hd

theorem rget_rdel (store : RStore) (k : String) : rget (rdel store k) k = none := by
  induction store with
  | nil => rfl
  | cons p store ih =>
    obtain ⟨a, b⟩ := p
    by_cases hp : a = k
    · have hdel : rdel ((a, b) :: store) k = rdel store k := by
        simp [rdel, List.filter_cons, hp]
      rw [hdel]
      exact ih
    · have hdel : rdel ((a, b) :: store) k = (a, b) :: rdel store k := by
        simp [rdel, List.filter_cons, hp]
      have hk : (k == a) = false := by
        rw [beq_eq_false_iff_ne]
        exact fun h => hp h.symm
      rw [hdel]
      show List.lookup k ((a, b) :: rdel store k) = none
      rw [List.lookup, hk]
      exact ih

/-! ## C9 — store round trip -/

/-- C9: for every store content, key and document, `save_state` succeeds
(returns `True`) and a subsequent `load_state` of the key returns exactly the
saved document; and after `clear_state` of a key, `load_state` of that key is
absent (`None`) — on any store content. -/
theorem store_roundtrip_c9 (store store2 : RStore) (k : String) (v : Json) :
    (save_state store k v).2 = true ∧
    load_state (save_state store k v).1 k = some v ∧
    load_state (clear_state store2 k).1 k = none := by
  refine ⟨rfl, ?_, ?_⟩
  · show load_state (rset store k (dumps v)) k = some v
    have hget : rget (rset store k (dumps v)) k = some (dumps v) := by
      simp [rget, rset, List.lookup]
    rw [load_state, hget]
    show (if dumps v ≠ "" then loads (dumps v) else none) = some v
    rw [if_pos (dumps_ne_empty v), loads_dumps]
  · rw [load_state, show (clear_state store2 k).1 = rdel store2 k from rfl,
      rget_rdel store2 k]

end Orchestra
